import Mathlib

/-!
Verification model of the `sidd_agent_ui_sdk` client library.

The development shallowly embeds the three source modules:

* `LoadExternalComponent.tsx` — the component Loader: a module-level
  `renderedComponents` set, the `tryRegisterComponent` check-and-set guard,
  the `normalizeProps` key-sorting helper and the `componentId` string.
* `useUIStream.tsx` — the live-stream Reconciler: the ordered collection of
  `StreamingComponent` descriptors, the event-application function run by the
  `onmessage` handler, and the reconnect/backoff state machine.
* `preload.ts` — `preloadUIBundle`, modelled on the set of script `src` URLs
  present in the document head.

JavaScript objects used as parameter maps are modelled as association lists
`List (String × V)` over an abstract value type `V`; a JS object has distinct
keys, which appears below as a `Nodup` hypothesis where it matters.  The
single-threaded event loop of the browser is modelled by applying the
synchronous steps of concurrent callers in arrival order.
-/

namespace AgentUiSdk

/-! ### Loader dedup guard (`LoadExternalComponent.tsx`, lines 24-39, 76-178)

`renderedComponents` is a module-level `Set<string>`; we model it as the list
of registered component ids.  `tryRegisterComponent` checks membership and
inserts immediately (before any fetch), returning whether the caller won the
registration. -/

/-- Model of `tryRegisterComponent`: atomic check-and-set on the global
`renderedComponents` set.  Returns the boolean result together with the
updated set. -/
def tryRegisterComponent (registered : List String) (componentId : String) :
    Bool × List String :=
  if componentId ∈ registered then (false, registered)
  else (true, registered ++ [componentId])

/-- What one render instance of the Loader ends up with: the winners of the
registration race fetch and either render the fragment or show the error box;
losers skip the effect entirely (`if (!shouldRender) ... return`). -/
inductive LoaderOutcome where
  | skipped : LoaderOutcome
  | rendered : String → LoaderOutcome
  | failed : String → LoaderOutcome
deriving DecidableEq

/-- The settled result of the (idempotent) fragment fetch for one identity:
`Except.ok fragment` or `Except.error message`. -/
abbrev FetchResult := Except String String

/-- Outcome of the fetch promise chain for the instance that actually
fetches: `.then` renders the fragment, `.catch` renders the error box. -/
def fetchOutcome : FetchResult → LoaderOutcome
  | Except.ok frag => LoaderOutcome.rendered frag
  | Except.error msg => LoaderOutcome.failed msg

/-- One render instance of `LoadExternalComponentInner` for a fixed
`componentId`: register during render, then (in the effect) fetch only when
registration succeeded.  Neither the success nor the failure path removes the
id from `renderedComponents` (the cleanup function is empty: the component is
marked as rendered permanently). -/
def runResolve (registered : List String) (componentId : String)
    (fetch : FetchResult) : LoaderOutcome × List String :=
  let r := tryRegisterComponent registered componentId
  if r.1 then (fetchOutcome fetch, r.2) else (LoaderOutcome.skipped, r.2)

/-- N render instances with the same `componentId` issued before the first
fetch settles.  Registration is synchronous (render phase), so the instances
are serialized by the event loop; the fetch result is the same for all since
`fetch` is idempotent for a fixed identity. -/
def resolveMany (registered : List String) (componentId : String)
    (fetch : FetchResult) : Nat → List LoaderOutcome × List String
  | 0 => ([], registered)
  | n + 1 =>
    let r := runResolve registered componentId fetch
    let rest := resolveMany r.2 componentId fetch n
    (r.1 :: rest.1, rest.2)

/-- Whether an outcome involved a network fetch (only registration winners
reach the `fetch(...)` call). -/
def isFetch : LoaderOutcome → Bool
  | LoaderOutcome.skipped => false
  | LoaderOutcome.rendered _ => true
  | LoaderOutcome.failed _ => true

/-- Number of network fetches among a list of caller outcomes. -/
def countFetches (outcomes : List LoaderOutcome) : Nat :=
  (outcomes.filter isFetch).length

/-! ### Identity normalization (`LoadExternalComponent.tsx`, lines 42-50, 64-68)

`normalizeProps` sorts the keys of the props object; `componentId` is the
string `graph_name + ":" + component_name + ":" + JSON.stringify(normalized)`.
Values are opaque to the normalization, so we keep them abstract in `V` and
serialize them through a caller-supplied `vstr` (their JSON rendering). -/

/-- Model of `normalizeProps`: rebuild the association list with keys in
sorted order (`Object.keys(props).sort().reduce(...)`). -/
def normalizeProps {V : Type} (props : List (String × V)) : List (String × V) :=
  props.mergeSort (fun a b => a.1 ≤ b.1)

/-- JSON.stringify of an object whose fields appear in list order; the value
of each field is rendered by `vstr`. -/
def jsonStringifyObj {V : Type} (vstr : V → String) (fields : List (String × V)) : String :=
  "\x7b" ++ String.intercalate ","
    (fields.map (fun kv => "\x22" ++ kv.1 ++ "\x22:" ++ vstr kv.2)) ++ "\x7d"

/-- Model of the `componentId` template string of line 68. -/
def componentId {V : Type} (vstr : V → String) (graph_name component_name : String)
    (props : List (String × V)) : String :=
  graph_name ++ ":" ++ component_name ++ ":" ++
    jsonStringifyObj vstr (normalizeProps props)

/-! ### Stream Reconciler data model (`useUIStream.tsx`, lines 9-20)

`UIEvent` carries optional `graph_name`, `component_name`, `props` and
`merge` (absent `merge` is falsy, modelled as `false`).  A descriptor stores
whatever the event carried; note the source writes `evt.graph_name!` in the
new-component branch even when the field is absent at runtime, so descriptor
fields are `Option String`. -/

/-- Model of the `UIEvent` messages decoded by the `onmessage` handler. -/
inductive UIEvent (V : Type) where
  | ui (id : String) (graph_name component_name : Option String)
      (props : Option (List (String × V))) (merge : Bool)
  | removeUi (id : String)

/-- Model of a `StreamingComponent` descriptor in the hook's `components`
state. -/
structure StreamingComponent (V : Type) where
  id : String
  graph_name : Option String
  component_name : Option String
  props : List (String × V)
deriving DecidableEq

/-- JS truthiness test used by `!evt.graph_name` / `!evt.component_name`:
an absent field and the empty string are both falsy. -/
def strFalsy : Option String → Bool
  | none => true
  | some s => s == ""

/-- Override step of the object spread: an entry of `old` keeps its key and
takes `new`'s value for that key when `new` has one. -/
def spreadOverride {V : Type} (new : List (String × V)) (kv : String × V) :
    String × V :=
  match new.find? (fun kv2 => kv2.1 == kv.1) with
  | some kv2 => (kv.1, kv2.2)
  | none => kv

/-- Shallow merge `\x7b...old, ...new\x7d` of two JS objects as association
lists: the keys of `old` in their order (values overridden by `new` where the
key reappears there), followed by the keys of `new` not present in `old`, in
their order. -/
def mergeProps {V : Type} (old new : List (String × V)) : List (String × V) :=
  old.map (spreadOverride new) ++
  new.filter (fun kv2 => !(old.any (fun kv => kv.1 == kv2.1)))

/-- Lookup of a key in a JS object modelled as an association list. -/
def lookupProp {V : Type} (k : String) (props : List (String × V)) : Option V :=
  (props.find? (fun kv => kv.1 == k)).map (fun kv => kv.2)

/-- JS `a ?? b` on our option values (used to state the merge lookup law). -/
def orElseO {V : Type} : Option V → Option V → Option V
  | some v, _ => some v
  | none, b => b

/-! ### Event application (`useUIStream.tsx`, lines 50-107)

The body of the `setComponents(prev => ...)` updater, plus the `remove-ui`
filter.  A `ui` event with `merge` falsy and a missing (or empty)
`graph_name`/`component_name` is dropped before the updater runs. -/

/-- Applies one decoded stream event to the current ordered collection. -/
def applyUIEvent {V : Type} (prev : List (StreamingComponent V)) :
    UIEvent V → List (StreamingComponent V)
  | UIEvent.ui id gn cn props merge =>
    if !merge && (strFalsy gn || strFalsy cn) then prev
    else
      match prev.findIdx? (fun c => c.id == id) with
      | some i =>
        if merge then
          prev.modify (fun c => { c with props := mergeProps c.props (props.getD []) }) i
        else
          prev.set i ⟨id, gn, cn, props.getD []⟩
      | none => prev ++ [⟨id, gn, cn, props.getD []⟩]
  | UIEvent.removeUi id => prev.filter (fun c => c.id != id)

/-- Collection states reachable from the initial empty `components` state by
a sequence of decoded stream events. -/
def applyEvents {V : Type} (evts : List (UIEvent V)) : List (StreamingComponent V) :=
  evts.foldl applyUIEvent []

/-- The stream-assigned ids of a collection, in display order. -/
def collectionIds {V : Type} (l : List (StreamingComponent V)) : List String :=
  l.map (fun c => c.id)

/-! ### Reconnect backoff (`useUIStream.tsx`, lines 43-48, 113-128) -/

/-- Connection-related state of the hook: the `connected` flag, the `error`
message and the `reconnectAttempts` ref. -/
structure StreamConnState where
  connected : Bool
  error : Option String
  reconnectAttempts : Nat
deriving DecidableEq

/-- State before the first `onopen`/`onerror` fires. -/
def initialStreamState : StreamConnState :=
  ⟨false, none, 0⟩

/-- Model of the `onopen` handler: set `connected`, clear the error, reset
the attempt counter. -/
def onOpen (s : StreamConnState) : StreamConnState :=
  { s with connected := true, error := none, reconnectAttempts := 0 }

/-- Model of the `onerror` handler: clear `connected`, set the user-visible
error, compute the backoff delay from the current attempt counter, then
increment the counter.  Returns the new state and the scheduled delay in
milliseconds. -/
def onError (s : StreamConnState) : StreamConnState × Nat :=
  ({ s with
      connected := false
      error := some "Connection lost. Reconnecting..."
      reconnectAttempts := s.reconnectAttempts + 1 },
    min (1000 * 2 ^ s.reconnectAttempts) 30000)

/-- Delays scheduled by `n` consecutive channel failures starting from
state `s` (each reconnect attempt failing again immediately). -/
def consecutiveDelays (s : StreamConnState) : Nat → List Nat
  | 0 => []
  | n + 1 =>
    let r := onError s
    r.2 :: consecutiveDelays r.1 n

/-! ### Preload (`preload.ts`, lines 23-51)

The document is modelled by the list of script `src` URLs present in its
head, in insertion order. -/

/-- The bundle URL template of line 29. -/
def preloadScriptUrl (apiUrl graphName : String) : String :=
  apiUrl ++ "/ui/" ++ graphName ++ "/entrypoint.js"

/-- Model of `preloadUIBundle`: `querySelector` for an existing script with
that `src`, early-return when found, otherwise append a new script element to
the head. -/
def preloadUIBundle (docScripts : List String) (apiUrl graphName : String) :
    List String :=
  let scriptUrl := preloadScriptUrl apiUrl graphName
  if scriptUrl ∈ docScripts then docScripts
  else docScripts ++ [scriptUrl]

/-- `n` successive calls of `preloadUIBundle` with the same arguments. -/
def preloadN (docScripts : List String) (apiUrl graphName : String) :
    Nat → List String
  | 0 => docScripts
  | n + 1 => preloadN (preloadUIBundle docScripts apiUrl graphName) apiUrl graphName n

/-! ## Helper lemmas for the Loader dedup guard -/

theorem tryRegisterComponent_of_not_mem {registered : List String} {id : String}
    (h : id ∉ registered) :
    tryRegisterComponent registered id = (true, registered ++ [id]) := by
  simp [tryRegisterComponent, h]

theorem tryRegisterComponent_of_mem {registered : List String} {id : String}
    (h : id ∈ registered) :
    tryRegisterComponent registered id = (false, registered) := by
  simp [tryRegisterComponent, h]

theorem runResolve_of_mem {registered : List String} {id : String} {fe : FetchResult}
    (h : id ∈ registered) :
    runResolve registered id fe = (LoaderOutcome.skipped, registered) := by
  simp [runResolve, tryRegisterComponent_of_mem h]

theorem runResolve_of_not_mem {registered : List String} {id : String} {fe : FetchResult}
    (h : id ∉ registered) :
    runResolve registered id fe = (fetchOutcome fe, registered ++ [id]) := by
  simp [runResolve, tryRegisterComponent_of_not_mem h]

theorem resolveMany_of_mem {registered : List String} {id : String} {fe : FetchResult}
    (h : id ∈ registered) (n : Nat) :
    resolveMany registered id fe n = (List.replicate n LoaderOutcome.skipped, registered) := by
  induction n with
  | zero => simp [resolveMany]
  | succ n ih => simp [resolveMany, runResolve_of_mem h, ih, List.replicate_succ]

theorem isFetch_fetchOutcome (fe : FetchResult) : isFetch (fetchOutcome fe) = true := by
  cases fe <;> rfl

theorem filter_isFetch_replicate (n : Nat) :
    (List.replicate n LoaderOutcome.skipped).filter isFetch = [] := by
  induction n with
  | zero => rfl
  | succ n ih => simp [List.replicate_succ, List.filter, isFetch, ih]

/-! ## C1 -/

/-- C1 (amended): for N ≥ 1 renders of the Loader with the same previously
unseen `componentId`, issued before the first fetch settles, exactly one
network fetch occurs; the registration-winning (first) caller receives the
fragment or the error and the remaining N−1 callers are skipped, receiving
neither. -/
theorem concurrent_resolve_dedup (registered : List String) (id : String)
    (fe : FetchResult) (n : Nat) (h : id ∉ registered) :
    (resolveMany registered id fe (n + 1)).1 =
      fetchOutcome fe :: List.replicate n LoaderOutcome.skipped ∧
    countFetches (resolveMany registered id fe (n + 1)).1 = 1 := by
  have hmem : id ∈ registered ++ [id] := by simp
  have hall : resolveMany registered id fe (n + 1) =
      (fetchOutcome fe :: List.replicate n LoaderOutcome.skipped, registered ++ [id]) := by
    simp [resolveMany, runResolve_of_not_mem h, resolveMany_of_mem hmem]
  refine ⟨by rw [hall], ?_⟩
  rw [hall]
  simp [countFetches, List.filter_cons, isFetch_fetchOutcome, filter_isFetch_replicate]

/-- Witness for C1 at a concrete input: three concurrent renders, fresh
registry, successful fetch. -/
theorem concurrent_resolve_dedup_witness :
    ("weather_app:weather:\x7b\x7d" ∉ ([] : List String)) ∧
    ((resolveMany [] "weather_app:weather:\x7b\x7d" (Except.ok "<div></div>") 3).1 =
        fetchOutcome (Except.ok "<div></div>") :: List.replicate 2 LoaderOutcome.skipped ∧
      countFetches
        (resolveMany [] "weather_app:weather:\x7b\x7d" (Except.ok "<div></div>") 3).1 = 1) :=
  ⟨by decide, concurrent_resolve_dedup [] "weather_app:weather:\x7b\x7d"
    (Except.ok "<div></div>") 2 (by decide)⟩

/-- Counterexample for C1 as stated: with two concurrent renders of the same
fresh identity and a successful fetch, the second caller is skipped, so it
does not receive the fragment (nor an error) that the first caller receives.
-/
theorem concurrent_resolve_counterexample :
    (resolveMany [] "weather_app:weather:\x7b\x7d" (Except.ok "<div>hi</div>") 2).1 =
      [LoaderOutcome.rendered "<div>hi</div>", LoaderOutcome.skipped] ∧
    LoaderOutcome.skipped ≠ LoaderOutcome.rendered "<div>hi</div>" := by
  decide

/-! ## C2 -/

/-- C2 (amended): after a fetch for an identity fails, the dedup marker for
that identity remains in `renderedComponents` (it is never evicted: the
`.catch` handler does not touch the set and the effect cleanup is empty), so
a later resolve call with the same identity is skipped and issues no new
fetch. -/
theorem failed_fetch_marker_permanent (registered : List String) (id : String)
    (msg : String) (fe : FetchResult) (h : id ∉ registered) :
    (runResolve registered id (Except.error msg)).1 = LoaderOutcome.failed msg ∧
    id ∈ (runResolve registered id (Except.error msg)).2 ∧
    (runResolve (runResolve registered id (Except.error msg)).2 id fe).1 =
      LoaderOutcome.skipped ∧
    (runResolve (runResolve registered id (Except.error msg)).2 id fe).2 =
      (runResolve registered id (Except.error msg)).2 := by
  have h1 : runResolve registered id (Except.error msg) =
      (LoaderOutcome.failed msg, registered ++ [id]) :=
    runResolve_of_not_mem h
  have hmem : id ∈ registered ++ [id] := by simp
  rw [h1]
  exact ⟨rfl, hmem, by rw [runResolve_of_mem hmem], by rw [runResolve_of_mem hmem]⟩

/-- Witness for C2 (amended) at a concrete input. -/
theorem failed_fetch_marker_permanent_witness :
    ("weather_app:weather:\x7b\x7d" ∉ ([] : List String)) ∧
    ((runResolve [] "weather_app:weather:\x7b\x7d"
        (Except.error "HTTP 500: Internal Server Error")).1 =
      LoaderOutcome.failed "HTTP 500: Internal Server Error" ∧
    "weather_app:weather:\x7b\x7d" ∈
      (runResolve [] "weather_app:weather:\x7b\x7d"
        (Except.error "HTTP 500: Internal Server Error")).2 ∧
    (runResolve (runResolve [] "weather_app:weather:\x7b\x7d"
        (Except.error "HTTP 500: Internal Server Error")).2
        "weather_app:weather:\x7b\x7d" (Except.ok "<div></div>")).1 =
      LoaderOutcome.skipped ∧
    (runResolve (runResolve [] "weather_app:weather:\x7b\x7d"
        (Except.error "HTTP 500: Internal Server Error")).2
        "weather_app:weather:\x7b\x7d" (Except.ok "<div></div>")).2 =
      (runResolve [] "weather_app:weather:\x7b\x7d"
        (Except.error "HTTP 500: Internal Server Error")).2) :=
  ⟨by decide, failed_fetch_marker_permanent [] "weather_app:weather:\x7b\x7d"
    "HTTP 500: Internal Server Error" (Except.ok "<div></div>") (by decide)⟩

/-- Counterexample for C2 as stated: after a failed fetch the marker is still
registered (the set equals `[id]`, not `[]`), and a later resolve call with
the same identity is skipped — no new fetch is issued. -/
theorem failed_fetch_retry_counterexample :
    (runResolve [] "weather_app:weather:\x7b\x7d"
        (Except.error "HTTP 500: Internal Server Error")).2 =
      ["weather_app:weather:\x7b\x7d"] ∧
    (runResolve ["weather_app:weather:\x7b\x7d"] "weather_app:weather:\x7b\x7d"
        (Except.ok "<div></div>")).1 = LoaderOutcome.skipped ∧
    isFetch (runResolve ["weather_app:weather:\x7b\x7d"] "weather_app:weather:\x7b\x7d"
        (Except.ok "<div></div>")).1 = false := by
  decide

/-! ## C6 -/

/-- C6: a `ui` event with `merge` falsy that is missing `graph_name` or
`component_name` is dropped by the validation check: the collection is
unchanged and no descriptor is created or replaced. -/
theorem nonmerge_update_missing_fields_dropped {V : Type} [DecidableEq V]
    (prev : List (StreamingComponent V)) (id : String)
    (props : Option (List (String × V))) :
    (∀ cn, applyUIEvent prev (UIEvent.ui id none cn props false) = prev) ∧
    (∀ gn, applyUIEvent prev (UIEvent.ui id gn none props false) = prev) := by
  constructor <;> intro x <;> simp [applyUIEvent, strFalsy]

/-! ## C8 -/

/-- C8: the reconnect delay scheduled after a channel failure is
`min(1000 * 2^attempt, 30000)` ms, the attempt counter increments on each
failure and resets to 0 on a successful connection; from a fresh counter the
consecutive-failure delays are 1000, 2000, 4000, 8000, 16000 and then 30000
for every attempt from the sixth on, and after a successful reconnect the
next failure is scheduled at 1000 ms again. -/
theorem reconnect_backoff_spec :
    (∀ s : StreamConnState,
        (onError s).2 = min (1000 * 2 ^ s.reconnectAttempts) 30000 ∧
        (onError s).1.reconnectAttempts = s.reconnectAttempts + 1 ∧
        (onOpen s).reconnectAttempts = 0) ∧
    consecutiveDelays initialStreamState 8 =
      [1000, 2000, 4000, 8000, 16000, 30000, 30000, 30000] ∧
    (∀ (k : Nat) (c : Bool) (e : Option String),
        (onError ⟨c, e, 5 + k⟩).2 = 30000) ∧
    (∀ s : StreamConnState, (onError (onOpen s)).2 = 1000) := by
  refine ⟨fun s => ⟨rfl, rfl, rfl⟩, by decide, ?_, fun s => rfl⟩
  intro k c e
  show min (1000 * 2 ^ (5 + k)) 30000 = 30000
  have hpow : (2 : Nat) ^ 5 ≤ 2 ^ (5 + k) :=
    Nat.pow_le_pow_right (by norm_num) (Nat.le_add_right 5 k)
  have h1 : (32000 : Nat) ≤ 1000 * 2 ^ (5 + k) := by
    calc (32000 : Nat) = 1000 * 2 ^ 5 := by norm_num
    _ ≤ 1000 * 2 ^ (5 + k) := Nat.mul_le_mul_left _ hpow
  exact min_eq_right (le_trans (by norm_num) h1)

/-! ## C9 -/

theorem mergeProps_nil_left {V : Type} (new : List (String × V)) :
    mergeProps [] new = new := by
  simp [mergeProps]

theorem findIdx?_id_eq_none {V : Type} {prev : List (StreamingComponent V)} {X : String}
    (h : ∀ c ∈ prev, c.id ≠ X) :
    prev.findIdx? (fun c => c.id == X) = none := by
  rw [List.findIdx?_eq_none_iff]
  intro c hc
  simpa using h c hc

/-- C9: a `ui` event with `merge=true` for an id not present in the
collection, carrying no `graph_name`/`component_name`, creates a new
descriptor (with absent namespace and component fields) whose parameters are
the event's parameters — equal to the shallow merge of those parameters into
an empty parameter object — and appends it at the end of the ordered
collection. -/
theorem merge_unknown_id_appends_new {V : Type} [DecidableEq V]
    (prev : List (StreamingComponent V)) (X : String)
    (props : Option (List (String × V)))
    (h : ∀ c ∈ prev, c.id ≠ X) :
    applyUIEvent prev (UIEvent.ui X none none props true) =
      prev ++ [⟨X, none, none, props.getD []⟩] ∧
    props.getD [] = mergeProps [] (props.getD []) := by
  refine ⟨?_, (mergeProps_nil_left _).symm⟩
  simp [applyUIEvent, findIdx?_id_eq_none h]

/-- Witness for C9 at a concrete input. -/
theorem merge_unknown_id_appends_new_witness :
    (∀ c ∈ ([⟨"A", some "weather_app", some "weather", []⟩] :
        List (StreamingComponent String)), c.id ≠ "B") ∧
    (applyUIEvent [⟨"A", some "weather_app", some "weather", []⟩]
        (UIEvent.ui "B" none none (some [("temp", "72")]) true) =
      [⟨"A", some "weather_app", some "weather", []⟩,
        ⟨"B", none, none, [("temp", "72")]⟩] ∧
      (some [("temp", "72")] : Option (List (String × String))).getD [] =
        mergeProps [] ((some [("temp", "72")] : Option (List (String × String))).getD [])) :=
  ⟨by decide, merge_unknown_id_appends_new
    [⟨"A", some "weather_app", some "weather", []⟩] "B" (some [("temp", "72")])
    (by decide)⟩

/-! ## C10 -/

theorem preloadScriptUrl_mem_preloadUIBundle (docScripts : List String)
    (apiUrl graphName : String) :
    preloadScriptUrl apiUrl graphName ∈ preloadUIBundle docScripts apiUrl graphName := by
  by_cases h : preloadScriptUrl apiUrl graphName ∈ docScripts <;>
    simp [preloadUIBundle, h]

theorem preloadUIBundle_of_mem {docScripts : List String} {apiUrl graphName : String}
    (h : preloadScriptUrl apiUrl graphName ∈ docScripts) :
    preloadUIBundle docScripts apiUrl graphName = docScripts := by
  simp [preloadUIBundle, h]

theorem preloadN_of_mem {docScripts : List String} {apiUrl graphName : String}
    (h : preloadScriptUrl apiUrl graphName ∈ docScripts) (n : Nat) :
    preloadN docScripts apiUrl graphName n = docScripts := by
  induction n with
  | zero => rfl
  | succ n ih => simp [preloadN, preloadUIBundle_of_mem h, ih]

theorem preloadN_succ_eq_single (docScripts : List String) (apiUrl graphName : String)
    (n : Nat) :
    preloadN docScripts apiUrl graphName (n + 1) =
      preloadUIBundle docScripts apiUrl graphName := by
  show preloadN (preloadUIBundle docScripts apiUrl graphName) apiUrl graphName n =
    preloadUIBundle docScripts apiUrl graphName
  exact preloadN_of_mem (preloadScriptUrl_mem_preloadUIBundle _ _ _) n

/-- C10: `preloadUIBundle` is idempotent on the document: any number of
successive calls with the same `(apiUrl, graphName)` inserts at most one
script element with src `apiUrl ++ "/ui/" ++ graphName ++ "/entrypoint.js"`
(every run of n ≥ 1 calls equals a single call), and every call made while a
script with that URL already exists leaves the document unchanged. -/
theorem preloadUIBundle_idempotent (docScripts : List String)
    (apiUrl graphName : String) :
    (∀ n, (preloadN docScripts apiUrl graphName n).count
        (preloadScriptUrl apiUrl graphName) ≤
      docScripts.count (preloadScriptUrl apiUrl graphName) + 1) ∧
    (preloadScriptUrl apiUrl graphName ∈ docScripts →
      preloadUIBundle docScripts apiUrl graphName = docScripts) ∧
    (∀ n, preloadN docScripts apiUrl graphName (n + 1) =
      preloadUIBundle docScripts apiUrl graphName) := by
  refine ⟨?_, fun h => preloadUIBundle_of_mem h, preloadN_succ_eq_single _ _ _⟩
  intro n
  match n with
  | 0 => exact Nat.le_succ_of_le (Nat.le_refl _)
  | n + 1 =>
    rw [preloadN_succ_eq_single]
    by_cases h : preloadScriptUrl apiUrl graphName ∈ docScripts
    · rw [preloadUIBundle_of_mem h]
      exact Nat.le_succ_of_le (Nat.le_refl _)
    · simp [preloadUIBundle, h]

/-- Witness for C10 at a concrete input (the script URL already present in
the document head). -/
theorem preloadUIBundle_idempotent_witness :
    ((preloadN ["http://localhost:8000/ui/weather_app/entrypoint.js"]
        "http://localhost:8000" "weather_app" 4).count
        (preloadScriptUrl "http://localhost:8000" "weather_app") ≤
      (["http://localhost:8000/ui/weather_app/entrypoint.js"].count
        (preloadScriptUrl "http://localhost:8000" "weather_app")) + 1) ∧
    (preloadScriptUrl "http://localhost:8000" "weather_app" ∈
        ["http://localhost:8000/ui/weather_app/entrypoint.js"] ∧
      preloadUIBundle ["http://localhost:8000/ui/weather_app/entrypoint.js"]
        "http://localhost:8000" "weather_app" =
        ["http://localhost:8000/ui/weather_app/entrypoint.js"]) :=
  ⟨(preloadUIBundle_idempotent _ "http://localhost:8000" "weather_app").1 4,
    by decide,
    (preloadUIBundle_idempotent _ "http://localhost:8000" "weather_app").2.1 (by decide)⟩

/-! ## Helper lemmas: shallow-merge lookup semantics -/

theorem fst_spreadOverride {V : Type} (new : List (String × V)) (kv : String × V) :
    (spreadOverride new kv).1 = kv.1 := by
  unfold spreadOverride
  cases new.find? (fun kv2 => kv2.1 == kv.1) <;> rfl

theorem find?_map_spreadOverride {V : Type} (k : String) (old new : List (String × V)) :
    (old.map (spreadOverride new)).find? (fun kv => kv.1 == k) =
      (old.find? (fun kv => kv.1 == k)).map (spreadOverride new) := by
  induction old with
  | nil => rfl
  | cons kv old ih =>
    simp only [List.map_cons, List.find?_cons, fst_spreadOverride]
    cases hc : (kv.1 == k) with
    | true => rfl
    | false => exact ih

theorem find?_filter_newOnly_of_found {V : Type} {k : String} {old : List (String × V)}
    (new : List (String × V)) {kv0 : String × V}
    (hold : old.find? (fun kv => kv.1 == k) = some kv0) :
    (new.filter (fun kv2 => !(old.any (fun kv => kv.1 == kv2.1)))).find?
      (fun kv => kv.1 == k) = none := by
  rw [List.find?_eq_none]
  intro x hx hpx
  have hmem := List.mem_filter.mp hx
  have hk0 : kv0.1 = k := by simpa using (List.find?_some hold)
  have hxk : x.1 = k := by simpa using hpx
  have hany : old.any (fun kv => kv.1 == x.1) = true := by
    rw [List.any_eq_true]
    exact ⟨kv0, List.mem_of_find?_eq_some hold, by simp [hk0, hxk]⟩
  rw [hany] at hmem
  simp at hmem

theorem find?_filter_newOnly_of_not_found {V : Type} {k : String} {old : List (String × V)}
    (new : List (String × V)) (hold : ∀ kv ∈ old, (kv.1 == k) = false) :
    (new.filter (fun kv2 => !(old.any (fun kv => kv.1 == kv2.1)))).find?
      (fun kv => kv.1 == k) = new.find? (fun kv => kv.1 == k) := by
  induction new with
  | nil => rfl
  | cons kv2 new ih =>
    simp only [List.filter_cons]
    cases hq : (old.any (fun kv => kv.1 == kv2.1)) with
    | true =>
      have hne : (kv2.1 == k) = false := by
        rw [beq_eq_false_iff_ne]
        intro hk2
        obtain ⟨kv, hkv, hbe⟩ := List.any_eq_true.mp hq
        have h1 : kv.1 = kv2.1 := by simpa using hbe
        have h3 := hold kv hkv
        rw [h1, hk2] at h3
        simp at h3
      rw [Bool.not_true, if_neg (by simp : ¬ (false = true)), ih, List.find?_cons, hne]
    | false =>
      rw [Bool.not_false, if_pos rfl]
      simp only [List.find?_cons]
      cases hp : (kv2.1 == k) with
      | true => rfl
      | false => exact ih

/-- The lookup law of the JS object spread: for every key, the merged object
yields the incoming value when present, the existing one otherwise. -/
theorem lookupProp_mergeProps {V : Type} (k : String) (old new : List (String × V)) :
    lookupProp k (mergeProps old new) =
      orElseO (lookupProp k new) (lookupProp k old) := by
  unfold lookupProp mergeProps
  rw [List.find?_append, find?_map_spreadOverride]
  cases hold : old.find? (fun kv => kv.1 == k) with
  | none =>
    have hnone : ∀ kv ∈ old, (kv.1 == k) = false := by
      intro kv hkv
      simpa using (List.find?_eq_none.mp hold kv hkv)
    rw [find?_filter_newOnly_of_not_found new hnone]
    cases new.find? (fun kv => kv.1 == k) <;> rfl
  | some kv0 =>
    rw [find?_filter_newOnly_of_found new hold]
    have hk0 : kv0.1 = k := by simpa using (List.find?_some hold)
    simp only [Option.map_some', Option.or_some]
    unfold spreadOverride
    rw [hk0]
    cases hnew : new.find? (fun kv2 => kv2.1 == k) <;> rfl

/-! ## Helper: position of an id in a duplicate-free collection -/

theorem findIdx?_id_of_nodup {V : Type} {prev : List (StreamingComponent V)}
    {X : String} {i : Nat} {c : StreamingComponent V}
    (hnd : (collectionIds prev).Nodup) (hc : prev[i]? = some c) (hid : c.id = X) :
    prev.findIdx? (fun x => x.id == X) = some i := by
  induction prev generalizing i with
  | nil => simp at hc
  | cons d rest ih =>
    have hnd1 : (d.id :: collectionIds rest).Nodup := hnd
    have hnd2 := List.nodup_cons.mp hnd1
    cases i with
    | zero =>
      simp only [List.getElem?_cons_zero, Option.some.injEq] at hc
      subst hc
      simp [List.findIdx?_cons, hid]
    | succ i =>
      simp only [List.getElem?_cons_succ] at hc
      have hne : (d.id == X) = false := by
        rw [beq_eq_false_iff_ne]
        intro hdx
        apply hnd2.1
        rw [hdx, ← hid]
        exact List.mem_map_of_mem _ (List.getElem?_mem hc)
      have hrest : rest.findIdx? (fun x => x.id == X) = some i :=
        ih (by simpa [collectionIds] using hnd2.2) hc
      rw [List.findIdx?_cons, hne]
      simp only [Bool.false_eq_true, if_false, List.findIdx?_succ, hrest, Option.map_some']

/-! ## C4 -/

/-- C4: applying `update \x7bid: X, merge: true, parameters: P\x7d` to a
collection whose (unique-id) descriptor with id X sits at position i keeps
the length, replaces that descriptor's parameters with the shallow merge of P
onto its existing parameters — incoming keys win on conflict, as the lookup
law states — keeps its id, namespace and component, keeps it at position i,
and leaves every other position unchanged. -/
theorem merge_event_updates_in_place {V : Type} (prev : List (StreamingComponent V))
    (X : String) (gn cn : Option String) (P : List (String × V)) (i : Nat)
    (c : StreamingComponent V) (hnd : (collectionIds prev).Nodup)
    (hc : prev[i]? = some c) (hid : c.id = X) :
    (applyUIEvent prev (UIEvent.ui X gn cn (some P) true)).length = prev.length ∧
    (applyUIEvent prev (UIEvent.ui X gn cn (some P) true))[i]? =
      some ⟨X, c.graph_name, c.component_name, mergeProps c.props P⟩ ∧
    (∀ k, lookupProp k (mergeProps c.props P) =
      orElseO (lookupProp k P) (lookupProp k c.props)) ∧
    (∀ j, j ≠ i →
      (applyUIEvent prev (UIEvent.ui X gn cn (some P) true))[j]? = prev[j]?) := by
  have hfind := findIdx?_id_of_nodup hnd hc hid
  have happ : applyUIEvent prev (UIEvent.ui X gn cn (some P) true) =
      prev.modify (fun x => { x with props := mergeProps x.props P }) i := by
    simp [applyUIEvent, hfind]
  refine ⟨?_, ?_, fun k => lookupProp_mergeProps k c.props P, ?_⟩
  · rw [happ]; simp
  · rw [happ, List.getElem?_modify_eq, hc]
    rw [← hid]
    rfl
  · intro j hji
    rw [happ, List.getElem?_modify_ne _ prev (Ne.symm hji)]

/-- Witness for C4 at the spec's own example: descriptor
`\x7bid:X, parameters:\x7ba:1,b:1\x7d\x7d` merged with `\x7ba:2\x7d`. -/
theorem merge_event_updates_in_place_witness :
    ((collectionIds
        [(⟨"X", some "weather_app", some "weather", [("a", "1"), ("b", "1")]⟩ :
          StreamingComponent String)]).Nodup ∧
      ([(⟨"X", some "weather_app", some "weather", [("a", "1"), ("b", "1")]⟩ :
          StreamingComponent String)])[0]? =
        some ⟨"X", some "weather_app", some "weather", [("a", "1"), ("b", "1")]⟩ ∧
      (⟨"X", some "weather_app", some "weather", [("a", "1"), ("b", "1")]⟩ :
          StreamingComponent String).id = "X") ∧
    (applyUIEvent
        [(⟨"X", some "weather_app", some "weather", [("a", "1"), ("b", "1")]⟩ :
          StreamingComponent String)]
        (UIEvent.ui "X" none none (some [("a", "2")]) true)).length = 1 ∧
    (applyUIEvent
        [(⟨"X", some "weather_app", some "weather", [("a", "1"), ("b", "1")]⟩ :
          StreamingComponent String)]
        (UIEvent.ui "X" none none (some [("a", "2")]) true))[0]? =
      some ⟨"X", some "weather_app", some "weather",
        mergeProps [("a", "1"), ("b", "1")] [("a", "2")]⟩ ∧
    lookupProp "a" (mergeProps [("a", "1"), ("b", "1")] [("a", "2")]) =
      orElseO (lookupProp "a" [("a", "2")]) (lookupProp "a" [("a", "1"), ("b", "1")]) ∧
    (applyUIEvent
        [(⟨"X", some "weather_app", some "weather", [("a", "1"), ("b", "1")]⟩ :
          StreamingComponent String)]
        (UIEvent.ui "X" none none (some [("a", "2")]) true))[1]? =
      ([(⟨"X", some "weather_app", some "weather", [("a", "1"), ("b", "1")]⟩ :
          StreamingComponent String)])[1]? :=
  by
  have h := merge_event_updates_in_place
    [(⟨"X", some "weather_app", some "weather", [("a", "1"), ("b", "1")]⟩ :
      StreamingComponent String)]
    "X" none none [("a", "2")] 0
    (⟨"X", some "weather_app", some "weather", [("a", "1"), ("b", "1")]⟩ :
      StreamingComponent String)
    (by decide) (by decide) rfl
  exact ⟨⟨by decide, by decide, rfl⟩, h.1, h.2.1, h.2.2.1 "a", h.2.2.2 1 (by decide)⟩

/-! ## C7 -/

theorem filter_ne_id_of_nodup {V : Type} {X : String} {c : StreamingComponent V}
    (hid : c.id = X) :
    ∀ (prev : List (StreamingComponent V)) (i : Nat),
      (collectionIds prev).Nodup → prev[i]? = some c →
      prev.filter (fun x => x.id != X) = prev.take i ++ prev.drop (i + 1) := by
  intro prev
  induction prev with
  | nil => intro i _ hc; simp at hc
  | cons d rest ih =>
    intro i hnd hc
    have hnd1 : (d.id :: collectionIds rest).Nodup := hnd
    have hnd2 := List.nodup_cons.mp hnd1
    cases i with
    | zero =>
      simp only [List.getElem?_cons_zero, Option.some.injEq] at hc
      subst hc
      have hdx : (d.id != X) = false := by simp [hid]
      rw [List.filter_cons, hdx, if_neg (by simp : ¬ (false = true))]
      have hrest : rest.filter (fun x => x.id != X) = rest := by
        rw [List.filter_eq_self]
        intro a ha
        rw [bne_iff_ne]
        intro haX
        have hmem : a.id ∈ collectionIds rest := List.mem_map_of_mem _ ha
        rw [haX, ← hid] at hmem
        exact hnd2.1 hmem
      rw [hrest]
      rfl
    | succ i =>
      simp only [List.getElem?_cons_succ] at hc
      have hdX : (d.id != X) = true := by
        rw [bne_iff_ne]
        intro hdx
        have hmem : c.id ∈ collectionIds rest :=
          List.mem_map_of_mem _ (List.getElem?_mem hc)
        rw [hid, ← hdx] at hmem
        exact hnd2.1 hmem
      rw [List.filter_cons, hdX, if_pos rfl, ih i hnd2.2 hc]
      rfl

/-- C7: on a duplicate-free collection, `remove-ui` with id X deletes exactly
the descriptor at X's position, leaving the prefix and suffix (hence every
other descriptor and their order) unchanged; when no descriptor has id X the
collection is unchanged. -/
theorem remove_event_exact {V : Type} (prev : List (StreamingComponent V)) (X : String) :
    (∀ (i : Nat) (c : StreamingComponent V), (collectionIds prev).Nodup →
      prev[i]? = some c → c.id = X →
      applyUIEvent prev (UIEvent.removeUi X) = prev.take i ++ prev.drop (i + 1)) ∧
    ((∀ c ∈ prev, c.id ≠ X) → applyUIEvent prev (UIEvent.removeUi X) = prev) := by
  constructor
  · intro i c hnd hc hid
    exact filter_ne_id_of_nodup hid prev i hnd hc
  · intro h
    show prev.filter (fun c => c.id != X) = prev
    rw [List.filter_eq_self]
    intro a ha
    simpa using h a ha

/-- Witness for C7 at a concrete three-element collection: removing the
middle descriptor, and removing an unknown id. -/
theorem remove_event_exact_witness :
    (((collectionIds
          [(⟨"A", some "g", some "c1", []⟩ : StreamingComponent String),
            ⟨"X", some "g", some "c2", []⟩, ⟨"B", some "g", some "c3", []⟩]).Nodup ∧
        ([(⟨"A", some "g", some "c1", []⟩ : StreamingComponent String),
            ⟨"X", some "g", some "c2", []⟩, ⟨"B", some "g", some "c3", []⟩])[1]? =
          some ⟨"X", some "g", some "c2", []⟩ ∧
        (⟨"X", some "g", some "c2", []⟩ : StreamingComponent String).id = "X") ∧
      applyUIEvent
          [(⟨"A", some "g", some "c1", []⟩ : StreamingComponent String),
            ⟨"X", some "g", some "c2", []⟩, ⟨"B", some "g", some "c3", []⟩]
          (UIEvent.removeUi "X") =
        ([(⟨"A", some "g", some "c1", []⟩ : StreamingComponent String),
            ⟨"X", some "g", some "c2", []⟩, ⟨"B", some "g", some "c3", []⟩]).take 1 ++
        ([(⟨"A", some "g", some "c1", []⟩ : StreamingComponent String),
            ⟨"X", some "g", some "c2", []⟩, ⟨"B", some "g", some "c3", []⟩]).drop 2) ∧
    ((∀ c ∈ [(⟨"A", some "g", some "c1", []⟩ : StreamingComponent String),
          ⟨"X", some "g", some "c2", []⟩, ⟨"B", some "g", some "c3", []⟩], c.id ≠ "Z") ∧
      applyUIEvent
          [(⟨"A", some "g", some "c1", []⟩ : StreamingComponent String),
            ⟨"X", some "g", some "c2", []⟩, ⟨"B", some "g", some "c3", []⟩]
          (UIEvent.removeUi "Z") =
        [(⟨"A", some "g", some "c1", []⟩ : StreamingComponent String),
          ⟨"X", some "g", some "c2", []⟩, ⟨"B", some "g", some "c3", []⟩]) := by
  refine ⟨⟨⟨by decide, by decide, rfl⟩, ?_⟩, ⟨by decide, ?_⟩⟩
  · exact (remove_event_exact
      [(⟨"A", some "g", some "c1", []⟩ : StreamingComponent String),
        ⟨"X", some "g", some "c2", []⟩, ⟨"B", some "g", some "c3", []⟩] "X").1 1
      ⟨"X", some "g", some "c2", []⟩ (by decide) (by decide) rfl
  · exact (remove_event_exact
      [(⟨"A", some "g", some "c1", []⟩ : StreamingComponent String),
        ⟨"X", some "g", some "c2", []⟩, ⟨"B", some "g", some "c3", []⟩] "Z").2
      (by decide)

/-! ## C5 helper lemmas -/

theorem applyUIEvent_merge_found {V : Type} {prev : List (StreamingComponent V)}
    {id : String} {gn cn : Option String} {props : Option (List (String × V))} {i : Nat}
    (hfind : prev.findIdx? (fun c => c.id == id) = some i) :
    applyUIEvent prev (UIEvent.ui id gn cn props true) =
      prev.modify (fun c => { c with props := mergeProps c.props (props.getD []) }) i := by
  simp [applyUIEvent, hfind]

theorem applyUIEvent_replace_found {V : Type} {prev : List (StreamingComponent V)}
    {id : String} {gn cn : Option String} {props : Option (List (String × V))} {i : Nat}
    (hval : (strFalsy gn || strFalsy cn) = false)
    (hfind : prev.findIdx? (fun c => c.id == id) = some i) :
    applyUIEvent prev (UIEvent.ui id gn cn props false) =
      prev.set i ⟨id, gn, cn, props.getD []⟩ := by
  simp [applyUIEvent, hval, hfind]

theorem applyUIEvent_append {V : Type} {prev : List (StreamingComponent V)}
    {id : String} {gn cn : Option String} {props : Option (List (String × V))} {merge : Bool}
    (hval : (!merge && (strFalsy gn || strFalsy cn)) = false)
    (hfind : prev.findIdx? (fun c => c.id == id) = none) :
    applyUIEvent prev (UIEvent.ui id gn cn props merge) =
      prev ++ [⟨id, gn, cn, props.getD []⟩] := by
  simp [applyUIEvent, hval, hfind]

theorem id_getElem?_of_findIdx? {V : Type} {prev : List (StreamingComponent V)}
    {id : String} {i : Nat} (hfind : prev.findIdx? (fun c => c.id == id) = some i) :
    ∃ c, prev[i]? = some c ∧ c.id = id := by
  obtain ⟨hi, hp, -⟩ := List.findIdx?_eq_some_iff_getElem.mp hfind
  exact ⟨prev[i], List.getElem?_eq_getElem hi, by simpa using hp⟩

theorem collectionIds_modify_of_id {V : Type} (prev : List (StreamingComponent V))
    (f : StreamingComponent V → StreamingComponent V)
    (hf : ∀ x, (f x).id = x.id) (i : Nat) :
    collectionIds (prev.modify f i) = collectionIds prev := by
  apply List.ext_getElem?
  intro n
  simp only [collectionIds, List.getElem?_map]
  by_cases h : i = n
  · subst h
    rw [List.getElem?_modify_eq]
    cases prev[i]? <;> simp [hf]
  · rw [List.getElem?_modify_ne _ prev h]

theorem collectionIds_set_of_id {V : Type} {prev : List (StreamingComponent V)} {i : Nat}
    {c x : StreamingComponent V} (hc : prev[i]? = some c) (hx : x.id = c.id) :
    collectionIds (prev.set i x) = collectionIds prev := by
  apply List.ext_getElem?
  intro n
  simp only [collectionIds, List.getElem?_map]
  by_cases h : i = n
  · subst h
    obtain ⟨hi, -⟩ := List.getElem?_eq_some_iff.mp hc
    rw [List.getElem?_set_self hi, hc]
    simp [hx]
  · rw [List.getElem?_set_ne h]

theorem id_not_mem_of_findIdx?_none {V : Type} {prev : List (StreamingComponent V)}
    {id : String} (hfind : prev.findIdx? (fun c => c.id == id) = none) :
    id ∉ collectionIds prev := by
  intro hmem
  obtain ⟨c, hcmem, hcid⟩ := List.mem_map.mp hmem
  have hfalse := List.findIdx?_eq_none_iff.mp hfind c hcmem
  rw [hcid] at hfalse
  simp at hfalse

theorem nodup_ids_applyUIEvent {V : Type} {prev : List (StreamingComponent V)}
    (hnd : (collectionIds prev).Nodup) (e : UIEvent V) :
    (collectionIds (applyUIEvent prev e)).Nodup := by
  cases e with
  | removeUi id =>
    have hsub : List.Sublist (collectionIds (prev.filter (fun c => c.id != id)))
        (collectionIds prev) :=
      (List.filter_sublist prev).map _
    exact List.Nodup.sublist hsub hnd
  | ui id gn cn props merge =>
    by_cases hval : (!merge && (strFalsy gn || strFalsy cn)) = true
    · have happ : applyUIEvent prev (UIEvent.ui id gn cn props merge) = prev := by
        simp [applyUIEvent, hval]
      rw [happ]; exact hnd
    · rw [Bool.not_eq_true] at hval
      cases hfind : prev.findIdx? (fun c => c.id == id) with
      | some i =>
        cases merge with
        | true =>
          rw [applyUIEvent_merge_found hfind,
            collectionIds_modify_of_id prev
              (fun c => { c with props := mergeProps c.props (props.getD []) })
              (fun x => rfl) i]
          exact hnd
        | false =>
          have hval2 : (strFalsy gn || strFalsy cn) = false := by simpa using hval
          obtain ⟨c, hc, hcid⟩ := id_getElem?_of_findIdx? hfind
          rw [applyUIEvent_replace_found hval2 hfind,
            collectionIds_set_of_id hc (by simpa using hcid.symm)]
          exact hnd
      | none =>
        rw [applyUIEvent_append hval hfind]
        have hnotmem := id_not_mem_of_findIdx?_none hfind
        simp only [collectionIds, List.map_append, List.map_cons, List.map_nil]
        rw [List.nodup_append]
        refine ⟨hnd, by simp, ?_⟩
        intro a ha hb
        simp only [List.mem_singleton] at hb
        subst hb
        exact hnotmem ha

theorem order_preserved_applyUIEvent {V : Type}
    (prev : List (StreamingComponent V)) (e : UIEvent V) :
    List.Sublist
      ((collectionIds (applyUIEvent prev e)).filter
        (fun a => (collectionIds prev).contains a))
      (collectionIds prev) := by
  cases e with
  | removeUi id =>
    exact (List.filter_sublist _).trans ((List.filter_sublist prev).map _)
  | ui id gn cn props merge =>
    by_cases hval : (!merge && (strFalsy gn || strFalsy cn)) = true
    · have happ : applyUIEvent prev (UIEvent.ui id gn cn props merge) = prev := by
        simp [applyUIEvent, hval]
      rw [happ]; exact List.filter_sublist _
    · rw [Bool.not_eq_true] at hval
      cases hfind : prev.findIdx? (fun c => c.id == id) with
      | some i =>
        cases merge with
        | true =>
          rw [applyUIEvent_merge_found hfind,
            collectionIds_modify_of_id prev
              (fun c => { c with props := mergeProps c.props (props.getD []) })
              (fun x => rfl) i]
          exact List.filter_sublist _
        | false =>
          have hval2 : (strFalsy gn || strFalsy cn) = false := by simpa using hval
          obtain ⟨c, hc, hcid⟩ := id_getElem?_of_findIdx? hfind
          rw [applyUIEvent_replace_found hval2 hfind,
            collectionIds_set_of_id hc (by simpa using hcid.symm)]
          exact List.filter_sublist _
      | none =>
        rw [applyUIEvent_append hval hfind]
        have hnotmem := id_not_mem_of_findIdx?_none hfind
        have hcontains : ((prev.map (fun c => c.id)).contains id) = false := by
          simpa [collectionIds] using hnotmem
        simp only [collectionIds, List.map_append, List.map_cons, List.map_nil,
          List.filter_append]
        rw [List.filter_cons, hcontains]
        simp only [Bool.false_eq_true, if_false, List.filter_nil, List.append_nil]
        exact List.filter_sublist _

/-! ## C5 -/

/-- C5: in every collection state reachable from the empty collection by a
sequence of stream events, descriptor ids are unique; and every single event
application preserves the relative order of the ids it does not remove (the
surviving previously-present ids form a subsequence of the previous order).
-/
theorem reconciler_ids_nodup_and_order_preserved :
    (∀ evts : List (UIEvent String),
      (collectionIds (applyEvents evts)).Nodup) ∧
    (∀ (prev : List (StreamingComponent String)) (e : UIEvent String),
      List.Sublist
        ((collectionIds (applyUIEvent prev e)).filter
          (fun a => (collectionIds prev).contains a))
        (collectionIds prev)) := by
  constructor
  · intro evts
    have haux : ∀ (es : List (UIEvent String)) (acc : List (StreamingComponent String)),
        (collectionIds acc).Nodup →
        (collectionIds (es.foldl applyUIEvent acc)).Nodup := by
      intro es
      induction es with
      | nil => intro acc h; exact h
      | cons e es ih =>
        intro acc h
        exact ih _ (nodup_ids_applyUIEvent h e)
    exact haux evts [] (by simp [collectionIds])
  · exact order_preserved_applyUIEvent

/-! ## C3 -/

theorem normalizeProps_perm {V : Type} (props : List (String × V)) :
    (normalizeProps props).Perm props :=
  List.mergeSort_perm props _

theorem normalizeProps_sorted_le {V : Type} (props : List (String × V)) :
    (normalizeProps props).Pairwise (fun a b => a.1 ≤ b.1) := by
  have h : (normalizeProps props).Pairwise
      (fun a b : String × V => (decide (a.1 ≤ b.1)) = true) := by
    unfold normalizeProps
    exact List.sorted_mergeSort
      (fun a b c hab hbc => by
        simp only [decide_eq_true_eq] at *
        exact le_trans hab hbc)
      (fun a b => by
        simp only [Bool.or_eq_true, decide_eq_true_eq]
        exact le_total a.1 b.1)
      props
  exact h.imp (fun hab => by simpa using hab)

theorem normalizeProps_sorted_lt {V : Type} {props : List (String × V)}
    (hnd : (props.map Prod.fst).Nodup) :
    (normalizeProps props).Pairwise (fun a b => a.1 < b.1) := by
  have hle := normalizeProps_sorted_le props
  have hndn : ((normalizeProps props).map Prod.fst).Nodup :=
    ((normalizeProps_perm props).map Prod.fst).nodup_iff.mpr hnd
  have hne : (normalizeProps props).Pairwise (fun a b : String × V => a.1 ≠ b.1) :=
    List.pairwise_map.mp hndn
  exact (hle.and hne).imp (fun h => lt_of_le_of_ne h.1 h.2)

/-- C3: the `componentId` string is invariant under reordering of the props
object's keys: for identical key/value sets presented in any two orders
(modelled as a permutation of the association list, with keys distinct as in
any JS object), the normalized serialization and hence the identity coincide.
-/
theorem componentId_key_permutation_invariant {V : Type} (vstr : V → String)
    (ns c : String) (p1 p2 : List (String × V))
    (hnd : (p1.map Prod.fst).Nodup) (hperm : p1.Perm p2) :
    componentId vstr ns c p1 = componentId vstr ns c p2 := by
  have hnd2 : (p2.map Prod.fst).Nodup := (hperm.map Prod.fst).nodup_iff.mp hnd
  have hs1 := normalizeProps_sorted_lt hnd
  have hs2 := normalizeProps_sorted_lt hnd2
  have hp : (normalizeProps p1).Perm (normalizeProps p2) :=
    (normalizeProps_perm p1).trans (hperm.trans (normalizeProps_perm p2).symm)
  haveI : IsAntisymm (String × V) (fun a b => a.1 < b.1) :=
    ⟨fun a b h1 h2 => absurd h1 (lt_asymm h2)⟩
  have heq : normalizeProps p1 = normalizeProps p2 :=
    List.eq_of_perm_of_sorted hp hs1 hs2
  unfold componentId
  rw [heq]

/-- Witness for C3 at a concrete proplist and its key permutation. -/
theorem componentId_key_permutation_invariant_witness :
    ((([("b", "2"), ("a", "1")] : List (String × String)).map Prod.fst).Nodup ∧
      ([("b", "2"), ("a", "1")] : List (String × String)).Perm
        [("a", "1"), ("b", "2")]) ∧
    componentId (fun v : String => v) "weather_app" "weather"
        [("b", "2"), ("a", "1")] =
      componentId (fun v : String => v) "weather_app" "weather"
        [("a", "1"), ("b", "2")] :=
  ⟨⟨by decide, by decide⟩,
    componentId_key_permutation_invariant (fun v => v) "weather_app" "weather"
      [("b", "2"), ("a", "1")] [("a", "1"), ("b", "2")] (by decide) (by decide)⟩

end AgentUiSdk
